import Mathlib

/-!
# paul-bunyan: logging facade and access-log middleware

A shallow embedding of `bunyan.go` (package `bunyan`): the level mapper
(`toLogrusLevel`, `toEchoLevel`), the field selector (`contains`), the trace
context extractor (`getTraceback`), the level accessors of the logger handle
and the request/response logging middleware (`MiddlewareWithConfig`).

Conventions of the embedding
* `log.Lvl` (gommon, `uint8`) and `logrus.Level` (`uint32`) are natural numbers.
* A Go `[]string` that may be `nil` is an `Option (List String)`; `none` is `nil`.
* `logrus.Fields` (`map[string]interface{}`) is an association list with unique keys.
* The wrapped handler `next` and the host error hook `c.Error` are arbitrary
  functions on the request state; the middleware reports what it does itself as
  a list of actions (log entries handed to the engine, the call to `next`, the
  call to the error hook), in program order.
-/

namespace Bunyan

/-! ## Severity levels -/

namespace log

/-- Host severity `log.Lvl` of gommon (a `uint8`). -/
abbrev Lvl := Nat

/-- gommon declares `DEBUG Lvl = iota + 1`, then `INFO`, `WARN`, `ERROR`, `OFF`. -/
def DEBUG : Lvl := 1

/-- `log.INFO`. -/
def INFO : Lvl := 2

/-- `log.WARN`. -/
def WARN : Lvl := 3

/-- `log.ERROR`. -/
def ERROR : Lvl := 4

/-- `log.OFF`. -/
def OFF : Lvl := 5

end log

namespace logrus

/-- Engine severity `logrus.Level` (a `uint32`). -/
abbrev Level := Nat

/-- logrus declares `PanicLevel Level = iota`, then `FatalLevel`, `ErrorLevel`,
`WarnLevel`, `InfoLevel`, `DebugLevel`, `TraceLevel`. -/
def PanicLevel : Level := 0

/-- `logrus.FatalLevel`. -/
def FatalLevel : Level := 1

/-- `logrus.ErrorLevel`. -/
def ErrorLevel : Level := 2

/-- `logrus.WarnLevel`. -/
def WarnLevel : Level := 3

/-- `logrus.InfoLevel`. -/
def InfoLevel : Level := 4

/-- `logrus.DebugLevel`. -/
def DebugLevel : Level := 5

/-- `logrus.TraceLevel`. -/
def TraceLevel : Level := 6

/-- The field of `logrus.Logger` that the facade reads and writes. -/
structure Logger where
  Level : Level
  deriving DecidableEq, Repr

end logrus

/-- The constants of `bunyan.go`: `DEBUG log.Lvl = iota + 1`, then `INFO`, `WARN`,
`ERROR`, `OFF`. -/
def DEBUG : log.Lvl := 1

/-- `INFO` of `bunyan.go`. -/
def INFO : log.Lvl := 2

/-- `WARN` of `bunyan.go`. -/
def WARN : log.Lvl := 3

/-- `ERROR` of `bunyan.go`. -/
def ERROR : log.Lvl := 4

/-- `OFF` of `bunyan.go`. -/
def OFF : log.Lvl := 5

/-- `toLogrusLevel`: a `switch` over the four host levels, `InfoLevel` after it. -/
def toLogrusLevel (level : log.Lvl) : logrus.Level :=
  if level = log.DEBUG then logrus.DebugLevel
  else if level = log.INFO then logrus.InfoLevel
  else if level = log.WARN then logrus.WarnLevel
  else if level = log.ERROR then logrus.ErrorLevel
  else logrus.InfoLevel

/-- `toEchoLevel`: a `switch` over the four engine levels, `log.OFF` after it. -/
def toEchoLevel (level : logrus.Level) : log.Lvl :=
  if level = logrus.DebugLevel then log.DEBUG
  else if level = logrus.InfoLevel then log.INFO
  else if level = logrus.WarnLevel then log.WARN
  else if level = logrus.ErrorLevel then log.ERROR
  else log.OFF

/-! ## The logger handle -/

/-- `APILogger`: the embedded `*logrus.Logger`. -/
structure APILogger where
  Logger : logrus.Logger
  deriving DecidableEq, Repr

/-- `func (l *APILogger) Level() log.Lvl`. -/
def APILogger.Level (l : APILogger) : log.Lvl :=
  toEchoLevel l.Logger.Level

/-- `func (l *APILogger) SetLevel(v log.Lvl)`. -/
def APILogger.SetLevel (l : APILogger) (v : log.Lvl) : APILogger :=
  { l with Logger := { l.Logger with Level := toLogrusLevel v } }

/-! ## Field selector -/

/-- The loop of `contains` over the elements of the slice. -/
def containsLoop : List String → String → Bool
  | [], _ => false
  | a :: rest, str => if a = str then true else containsLoop rest str

/-- `contains(arr, str)`: ranging over a `nil` slice visits nothing. -/
def contains (arr : Option (List String)) (str : String) : Bool :=
  match arr with
  | none => false
  | some l => containsLoop l str

/-! ## Field maps -/

/-- A Go error value, identified by its message. -/
structure GoError where
  msg : String
  deriving DecidableEq, Repr

/-- The values the code stores in a `logrus.Fields` map. -/
inductive Value
  | str (s : String)
  | int (n : Int)
  | duration (ns : Int)
  | error (e : GoError)
  deriving DecidableEq, Repr

/-- The map `logrus.Fields`, as an association list with unique keys. -/
abbrev Fields := List (String × Value)

/-- The literal `logrus.Fields{}`. -/
def Fields.empty : Fields := []

/-- The assignment `m[k] = v`. -/
def Fields.set (m : Fields) (k : String) (v : Value) : Fields :=
  (k, v) :: m.filter (fun p => p.1 ≠ k)

/-- The lookup `m[k]`. -/
def Fields.get (m : Fields) (k : String) : Option Value :=
  m.lookup k

/-- The keys of the map. -/
def Fields.keys (m : Fields) : List String :=
  m.map Prod.fst

/-- The statement `if cond { m[k] = v }`. -/
def Fields.setIf (m : Fields) (cond : Bool) (k : String) (v : Value) : Fields :=
  if cond then m.set k v else m

/-! ## The logging engine, as far as the facade and the middleware use it -/

/-- What the code does that is visible outside it, in program order. -/
inductive Action
  /-- an entry handed to the engine at an engine level with a message -/
  | entry (level : logrus.Level) (data : Fields) (message : String)
  /-- the call `next(c)` -/
  | next
  /-- the call `c.Error(err)` of the host error hook -/
  | Error (err : GoError)
  deriving DecidableEq, Repr

namespace logrus

/-- A `logrus.Entry`: the fields attached by `WithFields`. -/
structure Entry where
  Data : Fields
  deriving DecidableEq, Repr

/-- `Logger.WithFields(fields)`: a fresh entry carrying a copy of `fields`. -/
def Logger.WithFields (_logger : Logger) (fields : Fields) : Entry :=
  { Data := fields }

/-- `Entry.Debug(msg)`. -/
def Entry.Debug (e : Entry) (message : String) : Action :=
  .entry DebugLevel e.Data message

/-- `Entry.Info(msg)`. -/
def Entry.Info (e : Entry) (message : String) : Action :=
  .entry InfoLevel e.Data message

/-- `Entry.Warn(msg)`. -/
def Entry.Warn (e : Entry) (message : String) : Action :=
  .entry WarnLevel e.Data message

/-- `Entry.Error(msg)`. -/
def Entry.Error (e : Entry) (message : String) : Action :=
  .entry ErrorLevel e.Data message

end logrus

/-- The package-level variables `customLogger` and `traceback`. -/
structure Process where
  customLogger : APILogger
  traceback : Bool
  deriving DecidableEq, Repr

/-- `EnableTraceback`. -/
def EnableTraceback (p : Process) : Process :=
  { p with traceback := true }

/-- `DisableTraceback`. -/
def DisableTraceback (p : Process) : Process :=
  { p with traceback := false }

/-! ## Trace context extractor -/

/-- One frame of the call stack: the file and line where the frame currently
executes and the name of its function. -/
structure Frame where
  file : String
  line : Int
  function : String
  deriving DecidableEq, Repr

/-- A call stack, innermost frame first. -/
abbrev Stack := List Frame

/-- `runtime.Caller(skip)` followed by `runtime.FuncForPC(pc).Name()`; index 0 is
the frame that calls `runtime.Caller`. Past the end of the stack the file and the
name are empty and the line is 0. -/
def runtimeCaller (stack : Stack) (skip : Nat) : Frame :=
  (stack.get? skip).getD { file := "", line := 0, function := "" }

/-- The source file of the facade. -/
def bunyanFile : String := "bunyan.go"

/-- The frame of `getTraceback` while it calls `runtime.Caller` (line 109). -/
def getTracebackFrame : Frame :=
  { file := bunyanFile, line := 109, function := "github.com/Dewberry/paul-bunyan.getTraceback" }

/-- The frame of the method `(*APILogger).Info` while it calls `getTraceback`
(line 349). -/
def methodInfoFrame : Frame :=
  { file := bunyanFile, line := 349,
    function := "github.com/Dewberry/paul-bunyan.(*APILogger).Info" }

/-- The frame of the package-level `Info` while it calls `customLogger.Info`
(line 149). -/
def packageInfoFrame : Frame :=
  { file := bunyanFile, line := 149, function := "github.com/Dewberry/paul-bunyan.Info" }

/-- The frames that belong to the facade. -/
def facadeFrames : List Frame :=
  [getTracebackFrame, methodInfoFrame, packageInfoFrame]

/-- `getTraceback`, called from a function whose stack is `callers` (the caller's
own frame first). -/
def getTraceback (traceback : Bool) (callers : Stack) : Fields :=
  if traceback then
    let skip := 2
    let fr := runtimeCaller (getTracebackFrame :: callers) skip
    Fields.set (Fields.set (Fields.set Fields.empty "file" (.str fr.file)) "line"
      (.int fr.line)) "func" (.str fr.function)
  else
    Fields.empty

/-- The fields that name the frame `fr`. -/
def frameFields (fr : Frame) : Fields :=
  Fields.set (Fields.set (Fields.set Fields.empty "file" (.str fr.file)) "line"
    (.int fr.line)) "func" (.str fr.function)

/-- `func (l *APILogger) Info(i ...interface{})`, called from a function whose
stack is `callers`; `message` is the rendered argument list. -/
def APILogger.Info (l : APILogger) (traceback : Bool) (callers : Stack) (message : String) :
    Action :=
  (l.Logger.WithFields (getTraceback traceback (methodInfoFrame :: callers))).Info message

/-- The package-level `func Info(i ...interface{})`, which calls `customLogger.Info`. -/
def Info (p : Process) (callers : Stack) (message : String) : Action :=
  p.customLogger.Info p.traceback (packageInfoFrame :: callers) message

/-! ## The middleware -/

/-- A `http.Header`: canonical key to its values. -/
abbrev Header := List (String × List String)

/-- `Header.Get(key)`: the first value under the key, the empty string without one. -/
def Header.Get (h : Header) (key : String) : String :=
  match h.lookup key with
  | some (v :: _) => v
  | _ => ""

/-- `echo.HeaderXRequestID`. -/
def HeaderXRequestID : String := "X-Request-Id"

/-- `echo.HeaderContentLength`. -/
def HeaderContentLength : String := "Content-Length"

/-- The fields of `*http.Request` the middleware reads. -/
structure Request where
  Header : Header
  Host : String
  Method : String
  RequestURI : String
  deriving DecidableEq, Repr

/-- `Request.UserAgent()`. -/
def Request.UserAgent (r : Request) : String :=
  r.Header.Get "User-Agent"

/-- The fields of `*echo.Response` the middleware reads. -/
structure Response where
  Header : Header
  Status : Int
  Size : Int
  deriving DecidableEq, Repr

/-- What a handler sees and may change: the echo context (request, response, the
result of `c.RealIP()`) and the wall clock in nanoseconds (`time.Now()`). -/
structure State where
  request : Request
  response : Response
  realIP : String
  clock : Int
  deriving DecidableEq, Repr

/-- The surroundings of one run of the middleware: the wrapped handler, the host
error hook behind `c.Error`, and `time.Duration.String`. -/
structure Host where
  next : State → Option GoError × State
  Error : GoError → State → State
  durationString : Int → String

/-- `ReqConfig`. -/
structure ReqConfig where
  Fields : Option (List String)
  Level : log.Lvl
  Message : String
  deriving DecidableEq, Repr

/-- `ResConfig`. -/
structure ResConfig where
  Fields : Option (List String)
  Level : log.Lvl
  Message : String
  deriving DecidableEq, Repr

/-- `DefaultReqConfig`. -/
def DefaultReqConfig : ReqConfig :=
  { Fields := some ["id", "remote_ip", "host", "method", "uri", "user_agent", "bytes_in"],
    Level := INFO,
    Message := "REQUEST" }

/-- `DefaultResConfig`. -/
def DefaultResConfig : ResConfig :=
  { Fields := some ["id", "remote_ip", "host", "method", "uri", "user_agent", "status",
      "error", "latency", "latency_human", "bytes_in", "bytes_out"],
    Level := INFO,
    Message := "RESPONSE" }

/-- What one run of the handler returned by `MiddlewareWithConfig` leaves behind:
the returned error, the actions in program order, the final values of the local
maps `reqFields` and `resFields`, and the state after the run. -/
structure Outcome where
  err : Option GoError
  actions : List Action
  reqFields : Fields
  resFields : Fields
  state : State
  deriving DecidableEq, Repr

/-- The handler returned by `MiddlewareWithConfig(reqConfig, resConfig)(next)`, run
on the state `c` in the process `p`. `res` is a pointer, so the reads of the
response after `next` see what the handler and the error hook wrote. -/
def MiddlewareWithConfig (reqConfig : ReqConfig) (resConfig : ResConfig) (p : Process)
    (h : Host) (c : State) : Outcome :=
  let req := c.request
  let res := c.response
  let reqFields := Fields.empty
  let resFields := Fields.empty
  -- Get request and response message
  let reqMessage := reqConfig.Message
  let resMessage := resConfig.Message
  -- id field
  let id := req.Header.Get HeaderXRequestID
  let id := if id = "" then res.Header.Get HeaderXRequestID else id
  let reqFields := reqFields.setIf (reqConfig.Fields == none || contains reqConfig.Fields "id")
    "id" (.str id)
  let resFields := resFields.setIf (resConfig.Fields == none || contains resConfig.Fields "id")
    "id" (.str id)
  -- remote_ip field
  let reqFields := reqFields.setIf
    (reqConfig.Fields == none || contains reqConfig.Fields "remote_ip") "remote_ip"
    (.str c.realIP)
  let resFields := resFields.setIf
    (resConfig.Fields == none || contains resConfig.Fields "remote_ip") "remote_ip"
    (.str c.realIP)
  -- host field
  let reqFields := reqFields.setIf (reqConfig.Fields == none || contains reqConfig.Fields "host")
    "host" (.str req.Host)
  let resFields := resFields.setIf (resConfig.Fields == none || contains resConfig.Fields "host")
    "host" (.str req.Host)
  -- bytes_in field
  let reqSize := req.Header.Get HeaderContentLength
  let reqSize := if reqSize = "" then "0" else reqSize
  let reqFields := reqFields.setIf
    (reqConfig.Fields == none || contains reqConfig.Fields "bytes_in") "bytes_in" (.str reqSize)
  let resFields := resFields.setIf
    (resConfig.Fields == none || contains resConfig.Fields "bytes_in") "bytes_in" (.str reqSize)
  -- method field
  let reqFields := reqFields.setIf
    (reqConfig.Fields == none || contains reqConfig.Fields "method") "method" (.str req.Method)
  let resFields := resFields.setIf
    (resConfig.Fields == none || contains resConfig.Fields "method") "method" (.str req.Method)
  -- uri field
  let reqFields := reqFields.setIf (reqConfig.Fields == none || contains reqConfig.Fields "uri")
    "uri" (.str req.RequestURI)
  let resFields := resFields.setIf (resConfig.Fields == none || contains resConfig.Fields "uri")
    "uri" (.str req.RequestURI)
  -- user_agent field
  let reqFields := reqFields.setIf
    (reqConfig.Fields == none || contains reqConfig.Fields "user_agent") "user_agent"
    (.str req.UserAgent)
  let resFields := resFields.setIf
    (resConfig.Fields == none || contains resConfig.Fields "user_agent") "user_agent"
    (.str req.UserAgent)
  -- Send request log
  let sent : List Action :=
    if reqConfig.Level = DEBUG then [(p.customLogger.Logger.WithFields reqFields).Debug reqMessage]
    else if reqConfig.Level = INFO then [(p.customLogger.Logger.WithFields reqFields).Info reqMessage]
    else if reqConfig.Level = WARN then [(p.customLogger.Logger.WithFields reqFields).Warn reqMessage]
    else if reqConfig.Level = ERROR then [(p.customLogger.Logger.WithFields reqFields).Error reqMessage]
    else if reqConfig.Level = OFF then []
    else [(p.customLogger.Logger.WithFields reqFields).Info reqMessage]
  let start := c.clock
  let r := h.next c
  let err := r.1
  let c1 := r.2
  let sent := sent ++ [Action.next]
  let hooked : List Action × State :=
    match err with
    | some e => ([Action.Error e], h.Error e c1)
    | none => ([], c1)
  let sent := sent ++ hooked.1
  let c2 := hooked.2
  let stop := c2.clock
  let res := c2.response
  -- status field
  let resFields := resFields.setIf
    (resConfig.Fields == none || contains resConfig.Fields "status") "status" (.int res.Status)
  -- error field
  let resFields := resFields.setIf (resConfig.Fields == none || contains resConfig.Fields "error")
    "error" (match err with
      | none => .str ""
      | some e => .error e)
  -- latency field
  let resFields := resFields.setIf
    (resConfig.Fields == none || contains resConfig.Fields "latency") "latency"
    (.duration (stop - start))
  -- latency_human field
  let resFields := resFields.setIf
    (resConfig.Fields == none || contains resConfig.Fields "latency_human") "latency_human"
    (.str (h.durationString (stop - start)))
  -- bytes_out field
  let resFields := resFields.setIf
    (resConfig.Fields == none || contains resConfig.Fields "bytes_out") "bytes_out"
    (.str (toString res.Size))
  -- Send response log
  let sent : List Action := sent ++
    (if reqConfig.Level = DEBUG then [(p.customLogger.Logger.WithFields resFields).Debug resMessage]
    else if reqConfig.Level = INFO then [(p.customLogger.Logger.WithFields resFields).Info resMessage]
    else if reqConfig.Level = WARN then [(p.customLogger.Logger.WithFields resFields).Warn resMessage]
    else if reqConfig.Level = ERROR then [(p.customLogger.Logger.WithFields resFields).Error resMessage]
    else if reqConfig.Level = OFF then []
    else [(p.customLogger.Logger.WithFields resFields).Info resMessage])
  { err := err, actions := sent, reqFields := reqFields, resFields := resFields, state := c2 }

/-- `Middleware()`: the default configurations. -/
def Middleware (p : Process) (h : Host) (c : State) : Outcome :=
  MiddlewareWithConfig DefaultReqConfig DefaultResConfig p h c

/-! ## Sample inputs -/

/-- A request without `X-Request-Id` and without `Content-Length`. -/
def sampleRequest : Request :=
  { Header := [("User-Agent", ["curl/8.0"])], Host := "example.org", Method := "GET",
    RequestURI := "/v1/items" }

/-- A state around `sampleRequest`. -/
def sampleState : State :=
  { request := sampleRequest, response := { Header := [], Status := 200, Size := 0 },
    realIP := "10.0.0.7", clock := 1000 }

/-- A handler that succeeds after 5 ms and writes 12 bytes. -/
def okHost : Host :=
  { next := fun c =>
      (none, { c with clock := c.clock + 5000000, response := { c.response with Size := 12 } }),
    Error := fun _ c => { c with response := { c.response with Status := 500 } },
    durationString := fun ns => toString ns ++ "ns" }

/-- A handler that fails after 1 ms. -/
def failHost : Host :=
  { next := fun c => (some { msg := "boom" }, { c with clock := c.clock + 1000000 }),
    Error := fun _ c => { c with response := { c.response with Status := 500 } },
    durationString := fun ns => toString ns ++ "ns" }

/-- A process with the logger at the engine's info level and traceback off. -/
def sampleProcess : Process :=
  { customLogger := { Logger := { Level := logrus.InfoLevel } }, traceback := false }

/-- A state whose request carries `Content-Length: abc`. -/
def badLengthState : State :=
  { sampleState with
    request := { sampleRequest with Header := [(HeaderContentLength, ["abc"])] } }

/-- A state whose request carries `Content-Length: 42` and `X-Request-Id: r-1`, and
whose response already carries `X-Request-Id: gen-9`. -/
def idState : State :=
  { sampleState with
    request := { sampleRequest with
      Header := [(HeaderContentLength, ["42"]), (HeaderXRequestID, ["r-1"])] },
    response := { Header := [(HeaderXRequestID, ["gen-9"])], Status := 200, Size := 0 } }

/-- A call site in user code. -/
def sampleCallSite : Frame :=
  { file := "main.go", line := 42, function := "main.handler" }

/-- The stack of the user code at `sampleCallSite`. -/
def sampleStack : Stack :=
  [sampleCallSite, { file := "main.go", line := 10, function := "main.main" }]

/-! ## The words of the specification -/

/-- The specification's field selector `included(configuredFields, name)`: true
when the allowlist is unset, or when the name is a member of it. -/
def specIncluded (configuredFields : Option (List String)) (name : String) : Bool :=
  match configuredFields with
  | none => true
  | some l => decide (name ∈ l)

/-- The specification's request catalog. -/
def requestCatalog : List String :=
  ["id", "remote_ip", "host", "method", "uri", "user_agent", "bytes_in"]

/-- The specification's response catalog. -/
def responseCatalog : List String :=
  ["id", "remote_ip", "host", "method", "uri", "user_agent", "status", "error", "latency",
    "latency_human", "bytes_in", "bytes_out"]

/-- The severity both events are sent at: the request configuration's level when
it is one of the four emittable levels, `INFO` for any other value but `OFF`. -/
def specSeverity (level : log.Lvl) : log.Lvl :=
  if level = DEBUG ∨ level = INFO ∨ level = WARN ∨ level = ERROR then level else INFO

/-- The calls of the host error hook among the actions. -/
def hookCalls (actions : List Action) : List GoError :=
  actions.filterMap fun a =>
    match a with
    | .Error e => some e
    | _ => none

/-- The log entries among the actions: level, message and field map of each. -/
def logEvents (actions : List Action) : List (logrus.Level × String × Fields) :=
  actions.filterMap fun a =>
    match a with
    | .entry level data message => some (level, message, data)
    | _ => none

/-! ## Field maps -/

theorem Fields.keys_empty : Fields.empty.keys = [] := rfl

theorem Fields.get_empty (n : String) : Fields.empty.get n = none := rfl

theorem Fields.mem_keys_set (m : Fields) (k : String) (v : Value) (n : String) :
    n ∈ (m.set k v).keys ↔ n = k ∨ n ∈ m.keys := by
  simp only [Fields.set, Fields.keys, List.map_cons, List.mem_cons, List.mem_map,
    List.mem_filter, decide_eq_true_eq]
  constructor
  · rintro (h | ⟨q, ⟨hq, _⟩, rfl⟩)
    · exact Or.inl h
    · exact Or.inr ⟨q, hq, rfl⟩
  · rintro (h | ⟨q, hq, rfl⟩)
    · exact Or.inl h
    · by_cases hk : q.1 = k
      · exact Or.inl hk
      · exact Or.inr ⟨q, ⟨hq, hk⟩, rfl⟩

theorem Fields.mem_keys_setIf (m : Fields) (b : Bool) (k : String) (v : Value) (n : String) :
    n ∈ (m.setIf b k v).keys ↔ (b = true ∧ n = k) ∨ n ∈ m.keys := by
  cases b
  · simp [Fields.setIf]
  · simp [Fields.setIf, Fields.mem_keys_set]

theorem Fields.nodup_keys_set (m : Fields) (k : String) (v : Value) (h : m.keys.Nodup) :
    (m.set k v).keys.Nodup := by
  simp only [Fields.set, Fields.keys, List.map_cons, List.nodup_cons, List.mem_map,
    List.mem_filter, decide_eq_true_eq, not_exists, not_and]
  refine ⟨fun q hq hk => hq.2 hk, ?_⟩
  exact (List.filter_sublist m).map Prod.fst |>.nodup h

theorem Fields.nodup_keys_setIf (m : Fields) (b : Bool) (k : String) (v : Value)
    (h : m.keys.Nodup) : (m.setIf b k v).keys.Nodup := by
  cases b
  · simpa [Fields.setIf] using h
  · simpa [Fields.setIf] using Fields.nodup_keys_set m k v h

theorem Fields.lookup_filter_ne (m : Fields) (k n : String) (h : n ≠ k) :
    (m.filter fun p => decide (p.1 ≠ k)).lookup n = m.lookup n := by
  induction m with
  | nil => rfl
  | cons q rest ih =>
    obtain ⟨a, b⟩ := q
    by_cases hak : a = k
    · subst hak
      have hna : (n == a) = false := by simpa using h
      simpa [List.filter_cons, List.lookup_cons, hna] using ih
    · by_cases hn : n = a
      · subst hn
        simp [List.filter_cons, List.lookup_cons, hak]
      · have hna : (n == a) = false := by simpa using hn
        simpa [List.filter_cons, List.lookup_cons, hak, hna] using ih

theorem Fields.get_set (m : Fields) (k : String) (v : Value) (n : String) :
    (m.set k v).get n = if n = k then some v else m.get n := by
  by_cases h : n = k
  · subst h
    simp [Fields.set, Fields.get, List.lookup_cons]
  · have hnk : (n == k) = false := by simpa using h
    simp only [Fields.set, Fields.get, List.lookup_cons, hnk, if_neg h]
    exact Fields.lookup_filter_ne m k n h

theorem Fields.get_setIf (m : Fields) (b : Bool) (k : String) (v : Value) (n : String) :
    (m.setIf b k v).get n = if b = true ∧ n = k then some v else m.get n := by
  cases b
  · simp [Fields.setIf]
  · simp [Fields.setIf, Fields.get_set]

/-! ## Field selector -/

theorem containsLoop_eq_decide (l : List String) (str : String) :
    containsLoop l str = decide (str ∈ l) := by
  induction l with
  | nil => simp [containsLoop]
  | cons a rest ih =>
    by_cases h : a = str
    · simp [containsLoop, h]
    · have h' : ¬ str = a := fun e => h e.symm
      simp [containsLoop, h, h', ih]

/-- The guard `cfg.Fields == nil || contains(cfg.Fields, name)` of the middleware
is the specification's selector. -/
theorem guard_eq_specIncluded (fields : Option (List String)) (name : String) :
    (fields == none || contains fields name) = specIncluded fields name := by
  cases fields with
  | none => rfl
  | some l =>
    have h : (some l == (none : Option (List String))) = false := rfl
    simp only [h, Bool.false_or, contains, specIncluded]
    exact containsLoop_eq_decide l name

/-! ## Level mapper -/

theorem toLogrusLevel_of_unknown (l : log.Lvl) (h1 : l ≠ log.DEBUG) (h2 : l ≠ log.INFO)
    (h3 : l ≠ log.WARN) (h4 : l ≠ log.ERROR) : toLogrusLevel l = logrus.InfoLevel := by
  simp [toLogrusLevel, h1, h2, h3, h4]

theorem toEchoLevel_of_unknown (k : logrus.Level) (h1 : k ≠ logrus.DebugLevel)
    (h2 : k ≠ logrus.InfoLevel) (h3 : k ≠ logrus.WarnLevel) (h4 : k ≠ logrus.ErrorLevel) :
    toEchoLevel k = log.OFF := by
  simp [toEchoLevel, h1, h2, h3, h4]

theorem toEcho_toLogrus_of_known (s : log.Lvl)
    (hs : s = log.DEBUG ∨ s = log.INFO ∨ s = log.WARN ∨ s = log.ERROR) :
    toEchoLevel (toLogrusLevel s) = s := by
  rcases hs with rfl | rfl | rfl | rfl <;> decide

theorem toEcho_toLogrus (v : log.Lvl) :
    toEchoLevel (toLogrusLevel v) =
      if v = log.DEBUG ∨ v = log.INFO ∨ v = log.WARN ∨ v = log.ERROR then v else log.INFO := by
  by_cases h : v = log.DEBUG ∨ v = log.INFO ∨ v = log.WARN ∨ v = log.ERROR
  · rw [if_pos h]
    exact toEcho_toLogrus_of_known v h
  · rw [if_neg h]
    have h' := h
    simp only [not_or] at h'
    rw [toLogrusLevel_of_unknown v h'.1 h'.2.1 h'.2.2.1 h'.2.2.2]
    decide

/-- C6: both level mappings are total functions, and every host level outside
DEBUG, INFO, WARN, ERROR maps to the engine's info level while every engine level
outside Debug, Info, Warn, Error maps to host OFF. -/
theorem level_mapper_defaults (l : log.Lvl) (k : logrus.Level)
    (hl : l ∉ [log.DEBUG, log.INFO, log.WARN, log.ERROR])
    (hk : k ∉ [logrus.DebugLevel, logrus.InfoLevel, logrus.WarnLevel, logrus.ErrorLevel]) :
    toLogrusLevel l = logrus.InfoLevel ∧ toEchoLevel k = log.OFF := by
  simp only [List.mem_cons, List.mem_singleton, List.not_mem_nil, or_false, not_or] at hl hk
  exact ⟨toLogrusLevel_of_unknown l hl.1 hl.2.1 hl.2.2.1 hl.2.2.2,
    toEchoLevel_of_unknown k hk.1 hk.2.1 hk.2.2.1 hk.2.2.2⟩

/-- C6 at host OFF and at the engine's panic level, with the other levels outside
the four: fatal and trace map to OFF, out-of-range host values to info. -/
theorem level_mapper_defaults_witness :
    (toLogrusLevel log.OFF = logrus.InfoLevel ∧ toEchoLevel logrus.PanicLevel = log.OFF) ∧
      toEchoLevel logrus.FatalLevel = log.OFF ∧ toEchoLevel logrus.TraceLevel = log.OFF ∧
      toEchoLevel 7 = log.OFF ∧ toLogrusLevel 0 = logrus.InfoLevel ∧
      toLogrusLevel 6 = logrus.InfoLevel ∧ toLogrusLevel 255 = logrus.InfoLevel :=
  ⟨level_mapper_defaults log.OFF logrus.PanicLevel (by decide) (by decide),
    by decide, by decide, by decide, by decide, by decide, by decide⟩

/-- C7: on the host levels DEBUG, INFO, WARN, ERROR the mapping round-trips,
mapping to the engine a second time changes nothing, and two of the four levels
with the same engine level are the same level. -/
theorem level_round_trip (s : log.Lvl)
    (hs : s = log.DEBUG ∨ s = log.INFO ∨ s = log.WARN ∨ s = log.ERROR) :
    toEchoLevel (toLogrusLevel s) = s ∧
      toLogrusLevel (toEchoLevel (toLogrusLevel s)) = toLogrusLevel s ∧
      (∀ t : log.Lvl, (t = log.DEBUG ∨ t = log.INFO ∨ t = log.WARN ∨ t = log.ERROR) →
        toLogrusLevel s = toLogrusLevel t → s = t) ∧
      ([log.DEBUG, log.INFO, log.WARN, log.ERROR].map toLogrusLevel).Nodup := by
  have h := toEcho_toLogrus_of_known s hs
  refine ⟨h, by rw [h], ?_, by decide⟩
  intro t ht hst
  rw [← h, hst, toEcho_toLogrus_of_known t ht]

/-- C7 at WARN. -/
theorem level_round_trip_witness :
    toEchoLevel (toLogrusLevel log.WARN) = log.WARN ∧
      toLogrusLevel (toEchoLevel (toLogrusLevel log.WARN)) = toLogrusLevel log.WARN ∧
      (∀ t : log.Lvl, (t = log.DEBUG ∨ t = log.INFO ∨ t = log.WARN ∨ t = log.ERROR) →
        toLogrusLevel log.WARN = toLogrusLevel t → log.WARN = t) ∧
      ([log.DEBUG, log.INFO, log.WARN, log.ERROR].map toLogrusLevel).Nodup :=
  level_round_trip log.WARN (Or.inr (Or.inr (Or.inl rfl)))

/-- C9: after `SetLevel(v)` the logger's `Level()` is `v` for DEBUG, INFO, WARN,
ERROR and INFO for every other `v`; after `SetLevel(OFF)` it is INFO, and it is
never OFF. -/
theorem setLevel_then_level (l : APILogger) (v : log.Lvl) :
    (l.SetLevel v).Level =
        (if v = log.DEBUG ∨ v = log.INFO ∨ v = log.WARN ∨ v = log.ERROR then v else log.INFO) ∧
      (l.SetLevel log.OFF).Level = log.INFO ∧
      (l.SetLevel v).Level ≠ log.OFF := by
  have h : (l.SetLevel v).Level = toEchoLevel (toLogrusLevel v) := rfl
  have hoff : toEchoLevel (toLogrusLevel log.OFF) = log.INFO := by decide
  refine ⟨by rw [h, toEcho_toLogrus], hoff, ?_⟩
  rw [h, toEcho_toLogrus]
  split
  · rename_i hv
    rcases hv with rfl | rfl | rfl | rfl <;> decide
  · decide

/-! ## The middleware: field maps -/

theorem reqFields_mem_keys (reqConfig : ReqConfig) (resConfig : ResConfig) (p : Process)
    (h : Host) (c : State) (n : String) :
    n ∈ (MiddlewareWithConfig reqConfig resConfig p h c).reqFields.keys ↔
      n ∈ requestCatalog ∧ specIncluded reqConfig.Fields n = true := by
  simp only [MiddlewareWithConfig, Fields.mem_keys_setIf, guard_eq_specIncluded,
    Fields.keys_empty, List.not_mem_nil, or_false, requestCatalog, List.mem_cons]
  constructor
  · rintro (⟨hi, rfl⟩ | ⟨hi, rfl⟩ | ⟨hi, rfl⟩ | ⟨hi, rfl⟩ | ⟨hi, rfl⟩ | ⟨hi, rfl⟩ | ⟨hi, rfl⟩) <;>
      simp [hi]
  · rintro ⟨rfl | rfl | rfl | rfl | rfl | rfl | rfl, hi⟩ <;> simp [hi]

theorem resFields_mem_keys (reqConfig : ReqConfig) (resConfig : ResConfig) (p : Process)
    (h : Host) (c : State) (n : String) :
    n ∈ (MiddlewareWithConfig reqConfig resConfig p h c).resFields.keys ↔
      n ∈ responseCatalog ∧ specIncluded resConfig.Fields n = true := by
  simp only [MiddlewareWithConfig, Fields.mem_keys_setIf, guard_eq_specIncluded,
    Fields.keys_empty, List.not_mem_nil, or_false, responseCatalog, List.mem_cons]
  constructor
  · rintro (⟨hi, rfl⟩ | ⟨hi, rfl⟩ | ⟨hi, rfl⟩ | ⟨hi, rfl⟩ | ⟨hi, rfl⟩ | ⟨hi, rfl⟩ | ⟨hi, rfl⟩ |
      ⟨hi, rfl⟩ | ⟨hi, rfl⟩ | ⟨hi, rfl⟩ | ⟨hi, rfl⟩ | ⟨hi, rfl⟩) <;> simp [hi]
  · rintro ⟨rfl | rfl | rfl | rfl | rfl | rfl | rfl | rfl | rfl | rfl | rfl | rfl, hi⟩ <;>
      simp [hi]

theorem reqFields_nodup (reqConfig : ReqConfig) (resConfig : ResConfig) (p : Process)
    (h : Host) (c : State) :
    (MiddlewareWithConfig reqConfig resConfig p h c).reqFields.keys.Nodup := by
  simp only [MiddlewareWithConfig]
  repeat apply Fields.nodup_keys_setIf
  exact List.nodup_nil

theorem resFields_nodup (reqConfig : ReqConfig) (resConfig : ResConfig) (p : Process)
    (h : Host) (c : State) :
    (MiddlewareWithConfig reqConfig resConfig p h c).resFields.keys.Nodup := by
  simp only [MiddlewareWithConfig]
  repeat apply Fields.nodup_keys_setIf
  exact List.nodup_nil

/-! ## The middleware: events -/

/-- The `switch` on the level that sends one event, in closed form. -/
theorem send_switch (level : log.Lvl) (logger : logrus.Logger) (fields : Fields)
    (message : String) :
    (if level = DEBUG then [(logger.WithFields fields).Debug message]
      else if level = INFO then [(logger.WithFields fields).Info message]
      else if level = WARN then [(logger.WithFields fields).Warn message]
      else if level = ERROR then [(logger.WithFields fields).Error message]
      else if level = OFF then []
      else [(logger.WithFields fields).Info message]) =
    if level = OFF then []
      else [Action.entry (toLogrusLevel (specSeverity level)) fields message] := by
  by_cases h1 : level = DEBUG
  · subst h1; rfl
  by_cases h2 : level = INFO
  · subst h2; rfl
  by_cases h3 : level = WARN
  · subst h3; rfl
  by_cases h4 : level = ERROR
  · subst h4; rfl
  by_cases h5 : level = OFF
  · subst h5; rfl
  have hs : specSeverity level = INFO := by simp [specSeverity, h1, h2, h3, h4]
  rw [if_neg h1, if_neg h2, if_neg h3, if_neg h4, if_neg h5, if_neg h5, hs]
  rfl

theorem actions_eq (reqConfig : ReqConfig) (resConfig : ResConfig) (p : Process)
    (h : Host) (c : State) :
    (MiddlewareWithConfig reqConfig resConfig p h c).actions =
      (if reqConfig.Level = OFF then []
        else [Action.entry (toLogrusLevel (specSeverity reqConfig.Level))
          (MiddlewareWithConfig reqConfig resConfig p h c).reqFields reqConfig.Message]) ++
      [Action.next] ++
      (match (h.next c).1 with
        | some e => [Action.Error e]
        | none => []) ++
      (if reqConfig.Level = OFF then []
        else [Action.entry (toLogrusLevel (specSeverity reqConfig.Level))
          (MiddlewareWithConfig reqConfig resConfig p h c).resFields resConfig.Message]) := by
  simp only [MiddlewareWithConfig, send_switch]
  cases (h.next c).1 <;> rfl

theorem err_eq (reqConfig : ReqConfig) (resConfig : ResConfig) (p : Process)
    (h : Host) (c : State) :
    (MiddlewareWithConfig reqConfig resConfig p h c).err = (h.next c).1 := rfl

theorem specSeverity_round_trip (level : log.Lvl) :
    toEchoLevel (toLogrusLevel (specSeverity level)) = specSeverity level := by
  unfold specSeverity
  split
  · rename_i hl
    rcases hl with rfl | rfl | rfl | rfl <;> decide
  · decide

theorem logEvents_actions (reqConfig : ReqConfig) (resConfig : ResConfig) (p : Process)
    (h : Host) (c : State) :
    logEvents (MiddlewareWithConfig reqConfig resConfig p h c).actions =
      if reqConfig.Level = OFF then []
      else [(toLogrusLevel (specSeverity reqConfig.Level), reqConfig.Message,
              (MiddlewareWithConfig reqConfig resConfig p h c).reqFields),
            (toLogrusLevel (specSeverity reqConfig.Level), resConfig.Message,
              (MiddlewareWithConfig reqConfig resConfig p h c).resFields)] := by
  rw [actions_eq]
  by_cases hoff : reqConfig.Level = OFF <;> cases (h.next c).1 <;>
    simp [logEvents, hoff]

theorem hookCalls_actions (reqConfig : ReqConfig) (resConfig : ResConfig) (p : Process)
    (h : Host) (c : State) :
    hookCalls (MiddlewareWithConfig reqConfig resConfig p h c).actions =
      match (h.next c).1 with
      | some e => [e]
      | none => [] := by
  rw [actions_eq]
  by_cases hoff : reqConfig.Level = OFF <;> cases (h.next c).1 <;>
    simp [hookCalls, hoff]

theorem resFields_get_error (reqConfig : ReqConfig) (resConfig : ResConfig) (p : Process)
    (h : Host) (c : State) :
    (MiddlewareWithConfig reqConfig resConfig p h c).resFields.get "error" =
      if specIncluded resConfig.Fields "error" = true then
        some (match (h.next c).1 with
          | none => Value.str ""
          | some e => Value.error e)
      else none := by
  simp [MiddlewareWithConfig, Fields.get_setIf, guard_eq_specIncluded, Fields.get_empty]

theorem reqFields_get_bytes_in (reqConfig : ReqConfig) (resConfig : ResConfig) (p : Process)
    (h : Host) (c : State) :
    (MiddlewareWithConfig reqConfig resConfig p h c).reqFields.get "bytes_in" =
      if specIncluded reqConfig.Fields "bytes_in" = true then
        some (Value.str (if c.request.Header.Get HeaderContentLength = "" then "0"
          else c.request.Header.Get HeaderContentLength))
      else none := by
  simp [MiddlewareWithConfig, Fields.get_setIf, guard_eq_specIncluded, Fields.get_empty]

theorem resFields_get_bytes_in (reqConfig : ReqConfig) (resConfig : ResConfig) (p : Process)
    (h : Host) (c : State) :
    (MiddlewareWithConfig reqConfig resConfig p h c).resFields.get "bytes_in" =
      if specIncluded resConfig.Fields "bytes_in" = true then
        some (Value.str (if c.request.Header.Get HeaderContentLength = "" then "0"
          else c.request.Header.Get HeaderContentLength))
      else none := by
  simp [MiddlewareWithConfig, Fields.get_setIf, guard_eq_specIncluded, Fields.get_empty]

theorem reqFields_get_id (reqConfig : ReqConfig) (resConfig : ResConfig) (p : Process)
    (h : Host) (c : State) :
    (MiddlewareWithConfig reqConfig resConfig p h c).reqFields.get "id" =
      if specIncluded reqConfig.Fields "id" = true then
        some (Value.str (if c.request.Header.Get HeaderXRequestID = "" then
          c.response.Header.Get HeaderXRequestID else c.request.Header.Get HeaderXRequestID))
      else none := by
  simp [MiddlewareWithConfig, Fields.get_setIf, guard_eq_specIncluded, Fields.get_empty]

theorem resFields_get_id (reqConfig : ReqConfig) (resConfig : ResConfig) (p : Process)
    (h : Host) (c : State) :
    (MiddlewareWithConfig reqConfig resConfig p h c).resFields.get "id" =
      if specIncluded resConfig.Fields "id" = true then
        some (Value.str (if c.request.Header.Get HeaderXRequestID = "" then
          c.response.Header.Get HeaderXRequestID else c.request.Header.Get HeaderXRequestID))
      else none := by
  simp [MiddlewareWithConfig, Fields.get_setIf, guard_eq_specIncluded, Fields.get_empty]

theorem Header.Get_of_absent (hdr : Header) (key : String) (habs : hdr.lookup key = none) :
    hdr.Get key = "" := by
  simp [Header.Get, habs]


/-! ## Trace context extractor -/

theorem getTraceback_enabled (own site : Frame) (rest : Stack) :
    getTraceback true (own :: site :: rest) = frameFields site := rfl

theorem getTraceback_disabled (callers : Stack) :
    getTraceback false callers = Fields.empty := rfl

/-- Through the method, the traceback fields name the call site. -/
theorem method_Info_traceback (l : APILogger) (site : Frame) (rest : Stack)
    (message : String) :
    l.Info true (site :: rest) message =
      Action.entry logrus.InfoLevel (frameFields site) message := rfl

/-- Through the package-level function, the traceback fields name the frame of
that function, whatever the call site. -/
theorem package_Info_traceback (l : APILogger) (callers : Stack) (message : String) :
    Info { customLogger := l, traceback := true } callers message =
      Action.entry logrus.InfoLevel (frameFields packageInfoFrame) message := rfl

/-- C8, at the call site `main.handler` (main.go:42) with traceback enabled: the
package-level `Info` attaches file, line and func of its own frame in bunyan.go
(line 149), which belongs to the facade and differs from the call site, while the
method `APILogger.Info` called from the same site attaches the call site. -/
theorem package_Info_reports_facade_frame :
    Info (EnableTraceback sampleProcess) sampleStack "hello" =
        Action.entry logrus.InfoLevel
          [("func", Value.str "github.com/Dewberry/paul-bunyan.Info"),
            ("line", Value.int 149), ("file", Value.str "bunyan.go")] "hello" ∧
      Info (EnableTraceback sampleProcess) sampleStack "hello" ≠
        Action.entry logrus.InfoLevel (frameFields sampleCallSite) "hello" ∧
      packageInfoFrame ∈ facadeFrames ∧
      sampleCallSite ∉ facadeFrames ∧
      (EnableTraceback sampleProcess).customLogger.Info
          (EnableTraceback sampleProcess).traceback sampleStack "hello" =
        Action.entry logrus.InfoLevel (frameFields sampleCallSite) "hello" := by
  refine ⟨by decide, by decide, by decide, by decide, by decide⟩

/-! ## The claims about the middleware -/

/-- C1: each field map is filtered against its own configuration only. The keys
of the request map are the names of the request catalog that the request
allowlist selects (unset selects all), the keys of the response map are the names
of the response catalog that the response allowlist selects, keys are unique, the
events carry these two maps, and neither map depends on the other configuration.
A set-but-empty allowlist gives an empty map; the allowlist method, uri with an
unset response allowlist gives the keys method and uri and all twelve response
keys. -/
theorem field_maps_filtered (reqConfig : ReqConfig) (resConfig : ResConfig) (p : Process)
    (h : Host) (c : State) :
    let o := MiddlewareWithConfig reqConfig resConfig p h c
    let b := MiddlewareWithConfig { reqConfig with Fields := some ["method", "uri"] }
      { resConfig with Fields := none } p h c
    (∀ n, n ∈ o.reqFields.keys ↔
        n ∈ requestCatalog ∧ specIncluded reqConfig.Fields n = true) ∧
      (∀ n, n ∈ o.resFields.keys ↔
        n ∈ responseCatalog ∧ specIncluded resConfig.Fields n = true) ∧
      o.reqFields.keys.Nodup ∧ o.resFields.keys.Nodup ∧
      (logEvents o.actions).map (fun e => e.2.2) =
        (if reqConfig.Level = OFF then [] else [o.reqFields, o.resFields]) ∧
      (∀ other : ResConfig,
        (MiddlewareWithConfig reqConfig other p h c).reqFields = o.reqFields) ∧
      (∀ other : ReqConfig,
        (MiddlewareWithConfig other resConfig p h c).resFields = o.resFields) ∧
      (MiddlewareWithConfig { reqConfig with Fields := some [] } resConfig p h c).reqFields
        = [] ∧
      (MiddlewareWithConfig reqConfig { resConfig with Fields := some [] } p h c).resFields
        = [] ∧
      (∀ n, n ∈ b.reqFields.keys ↔ n = "method" ∨ n = "uri") ∧
      (∀ n, n ∈ b.resFields.keys ↔ n ∈ responseCatalog) ∧
      b.reqFields.keys.length = 2 ∧ b.resFields.keys.length = 12 := by
  intro o b
  refine ⟨reqFields_mem_keys _ _ _ _ _, resFields_mem_keys _ _ _ _ _, reqFields_nodup _ _ _ _ _,
    resFields_nodup _ _ _ _ _, ?_, fun _ => rfl, fun _ => rfl, rfl, rfl, ?_, ?_, rfl, rfl⟩
  · show (logEvents (MiddlewareWithConfig reqConfig resConfig p h c).actions).map _ = _
    rw [logEvents_actions]
    by_cases hoff : reqConfig.Level = OFF <;> simp [hoff, o]
  · intro n
    show n ∈ (MiddlewareWithConfig _ _ p h c).reqFields.keys ↔ _
    rw [reqFields_mem_keys]
    constructor
    · rintro ⟨_, hi⟩
      simpa [specIncluded] using hi
    · rintro (rfl | rfl) <;> simp [requestCatalog, specIncluded]
  · intro n
    show n ∈ (MiddlewareWithConfig _ _ p h c).resFields.keys ↔ _
    rw [resFields_mem_keys]
    simp [specIncluded]

/-- C2: the events handed to the engine are fixed by the request configuration's
level. At OFF the handler only calls `next` (and the error hook on an error);
otherwise it sends the request event, calls `next` (and the hook on an error) and
sends the response event, both at the request level when that is DEBUG, INFO,
WARN or ERROR and at INFO for any other value. The response configuration's
level changes nothing, and the shape is the same with and without a handler
error. -/
theorem events_by_request_level (reqConfig : ReqConfig) (resConfig : ResConfig)
    (p : Process) (h : Host) (c : State) :
    let o := MiddlewareWithConfig reqConfig resConfig p h c
    let sev := toLogrusLevel (specSeverity reqConfig.Level)
    let hook : List Action :=
      match (h.next c).1 with
      | some e => [Action.Error e]
      | none => []
    o.actions =
        (if reqConfig.Level = OFF then [Action.next] ++ hook
        else [Action.entry sev o.reqFields reqConfig.Message, Action.next] ++ hook ++
          [Action.entry sev o.resFields resConfig.Message]) ∧
      logEvents o.actions =
        (if reqConfig.Level = OFF then []
        else [(sev, reqConfig.Message, o.reqFields), (sev, resConfig.Message, o.resFields)]) ∧
      toEchoLevel sev = specSeverity reqConfig.Level ∧
      (∀ level : log.Lvl,
        MiddlewareWithConfig reqConfig { resConfig with Level := level } p h c = o) := by
  intro o sev hook
  refine ⟨?_, logEvents_actions _ _ _ _ _, specSeverity_round_trip _, fun _ => rfl⟩
  show (MiddlewareWithConfig reqConfig resConfig p h c).actions = _
  rw [actions_eq]
  by_cases hoff : reqConfig.Level = OFF <;> simp [hoff, o, sev, hook]

/-- C3: the handler returns the result of `next` unchanged, calls the host error
hook once with that error when there is one and not at all otherwise, and, when
the response allowlist selects error, stores the empty string for no error and
the error value itself otherwise. -/
theorem handler_error_propagated (reqConfig : ReqConfig) (resConfig : ResConfig)
    (p : Process) (h : Host) (c : State) :
    let o := MiddlewareWithConfig reqConfig resConfig p h c
    o.err = (h.next c).1 ∧
      hookCalls o.actions =
        (match (h.next c).1 with
          | some e => [e]
          | none => []) ∧
      o.resFields.get "error" =
        (if specIncluded resConfig.Fields "error" = true then
          some (match (h.next c).1 with
            | none => Value.str ""
            | some e => Value.error e)
        else none) ∧
      o.state =
        (match (h.next c).1 with
          | some e => h.Error e (h.next c).2
          | none => (h.next c).2) := by
  intro o
  refine ⟨rfl, hookCalls_actions _ _ _ _ _, resFields_get_error _ _ _ _ _, ?_⟩
  show (MiddlewareWithConfig reqConfig resConfig p h c).state = _
  simp only [MiddlewareWithConfig]
  cases (h.next c).1 <;> rfl

/-- C4, refuted as stated: with `Content-Length: abc`, a value without a single
digit, both maps store abc under bytes_in, not 0. -/
theorem bytes_in_unparsable_kept :
    "abc".toList.all (fun ch => !ch.isDigit) = true ∧
      badLengthState.request.Header.Get HeaderContentLength = "abc" ∧
      (MiddlewareWithConfig DefaultReqConfig DefaultResConfig sampleProcess okHost
        badLengthState).reqFields.get "bytes_in" = some (Value.str "abc") ∧
      (MiddlewareWithConfig DefaultReqConfig DefaultResConfig sampleProcess okHost
        badLengthState).resFields.get "bytes_in" = some (Value.str "abc") ∧
      (MiddlewareWithConfig DefaultReqConfig DefaultResConfig sampleProcess okHost
        badLengthState).reqFields.get "bytes_in" ≠ some (Value.str "0") ∧
      (MiddlewareWithConfig DefaultReqConfig DefaultResConfig sampleProcess okHost
        badLengthState).resFields.get "bytes_in" ≠ some (Value.str "0") := by
  refine ⟨by decide, by decide, by decide, by decide, by decide, by decide⟩

/-- C4, amended: the value under bytes_in, in each map whose allowlist selects
it, is the first Content-Length value of the request as it stands when that value
is not empty, and the string 0 when the header is absent or its value is empty;
the value is not parsed. -/
theorem bytes_in_value (reqConfig : ReqConfig) (resConfig : ResConfig) (p : Process)
    (h : Host) (c : State) :
    let raw := c.request.Header.Get HeaderContentLength
    let size := if raw = "" then "0" else raw
    let o := MiddlewareWithConfig reqConfig resConfig p h c
    o.reqFields.get "bytes_in" =
        (if specIncluded reqConfig.Fields "bytes_in" = true then some (Value.str size)
        else none) ∧
      o.resFields.get "bytes_in" =
        (if specIncluded resConfig.Fields "bytes_in" = true then some (Value.str size)
        else none) ∧
      (c.request.Header.lookup HeaderContentLength = none → size = "0") ∧
      (MiddlewareWithConfig DefaultReqConfig DefaultResConfig sampleProcess okHost
        sampleState).reqFields.get "bytes_in" = some (Value.str "0") ∧
      (MiddlewareWithConfig DefaultReqConfig DefaultResConfig sampleProcess okHost
        idState).resFields.get "bytes_in" = some (Value.str "42") := by
  intro raw size o
  refine ⟨reqFields_get_bytes_in _ _ _ _ _, resFields_get_bytes_in _ _ _ _ _, ?_,
    by decide, by decide⟩
  intro habs
  simp [size, raw, Header.Get_of_absent _ _ habs]

/-- C5: the correlation id is the X-Request-Id header of the request when that is
not empty, otherwise the X-Request-Id header of the response, which is the empty
string when absent; each map whose allowlist selects id stores that one value. -/
theorem correlation_id (reqConfig : ReqConfig) (resConfig : ResConfig) (p : Process)
    (h : Host) (c : State) :
    let inbound := c.request.Header.Get HeaderXRequestID
    let outbound := c.response.Header.Get HeaderXRequestID
    let id := if inbound ≠ "" then inbound else outbound
    let o := MiddlewareWithConfig reqConfig resConfig p h c
    o.reqFields.get "id" =
        (if specIncluded reqConfig.Fields "id" = true then some (Value.str id) else none) ∧
      o.resFields.get "id" =
        (if specIncluded resConfig.Fields "id" = true then some (Value.str id) else none) ∧
      (id = "" ↔ inbound = "" ∧ outbound = "") ∧
      (c.request.Header.lookup HeaderXRequestID = none →
        c.response.Header.lookup HeaderXRequestID = none → id = "") ∧
      (MiddlewareWithConfig DefaultReqConfig DefaultResConfig sampleProcess okHost
        idState).reqFields.get "id" = some (Value.str "r-1") ∧
      (MiddlewareWithConfig DefaultReqConfig DefaultResConfig sampleProcess okHost
        { idState with request := sampleRequest }).resFields.get "id" =
          some (Value.str "gen-9") ∧
      (MiddlewareWithConfig DefaultReqConfig DefaultResConfig sampleProcess okHost
        sampleState).reqFields.get "id" = some (Value.str "") := by
  intro inbound outbound id o
  refine ⟨?_, ?_, ?_, ?_, by decide, by decide, by decide⟩
  · show (MiddlewareWithConfig reqConfig resConfig p h c).reqFields.get "id" = _
    rw [reqFields_get_id]
    by_cases hin : c.request.Header.Get HeaderXRequestID = "" <;> simp [id, inbound, outbound, hin]
  · show (MiddlewareWithConfig reqConfig resConfig p h c).resFields.get "id" = _
    rw [resFields_get_id]
    by_cases hin : c.request.Header.Get HeaderXRequestID = "" <;> simp [id, inbound, outbound, hin]
  · by_cases hin : inbound = "" <;> simp [id, hin]
  · intro h1 h2
    simp [id, inbound, outbound, Header.Get_of_absent _ _ h1, Header.Get_of_absent _ _ h2]

/-- C10: the run of the middleware is the same with traceback enabled and with
traceback disabled, and no event of the middleware has a key file, line or func;
the facade's own `Info`, by contrast, attaches these keys when traceback is
enabled. -/
theorem middleware_ignores_traceback (reqConfig : ReqConfig) (resConfig : ResConfig)
    (p : Process) (h : Host) (c : State) :
    MiddlewareWithConfig reqConfig resConfig (EnableTraceback p) h c =
        MiddlewareWithConfig reqConfig resConfig (DisableTraceback p) h c ∧
      (∀ e ∈ logEvents (MiddlewareWithConfig reqConfig resConfig p h c).actions,
        "file" ∉ e.2.2.keys ∧ "line" ∉ e.2.2.keys ∧ "func" ∉ e.2.2.keys) ∧
      (∀ e ∈ logEvents (MiddlewareWithConfig reqConfig resConfig p h c).actions,
        e.2.2 = (MiddlewareWithConfig reqConfig resConfig p h c).reqFields ∨
        e.2.2 = (MiddlewareWithConfig reqConfig resConfig p h c).resFields) ∧
      logEvents [(EnableTraceback p).customLogger.Info (EnableTraceback p).traceback
          sampleStack "hello"] ≠
        logEvents [(DisableTraceback p).customLogger.Info (DisableTraceback p).traceback
          sampleStack "hello"] := by
  have hfrom : ∀ e ∈ logEvents (MiddlewareWithConfig reqConfig resConfig p h c).actions,
      e.2.2 = (MiddlewareWithConfig reqConfig resConfig p h c).reqFields ∨
      e.2.2 = (MiddlewareWithConfig reqConfig resConfig p h c).resFields := by
    intro e he
    rw [logEvents_actions] at he
    by_cases hoff : reqConfig.Level = OFF
    · simp [hoff] at he
    · simp only [hoff, if_false, List.mem_cons, List.mem_singleton, List.not_mem_nil,
        or_false] at he
      rcases he with rfl | rfl
      · exact Or.inl rfl
      · exact Or.inr rfl
  have hno : ∀ n : String, n ∉ requestCatalog → n ∉ responseCatalog →
      ∀ e ∈ logEvents (MiddlewareWithConfig reqConfig resConfig p h c).actions,
        n ∉ e.2.2.keys := by
    intro n h1 h2 e he hn
    rcases hfrom e he with heq | heq
    · rw [heq, reqFields_mem_keys] at hn
      exact h1 hn.1
    · rw [heq, resFields_mem_keys] at hn
      exact h2 hn.1
  refine ⟨rfl, fun e he => ⟨?_, ?_, ?_⟩, hfrom, ?_⟩
  · exact hno "file" (by decide) (by decide) e he
  · exact hno "line" (by decide) (by decide) e he
  · exact hno "func" (by decide) (by decide) e he
  · simp [logEvents, APILogger.Info, EnableTraceback, DisableTraceback, getTraceback,
      logrus.Logger.WithFields, logrus.Entry.Info, Fields.empty, Fields.set]

end Bunyan
